import Mathlib

/-!
Verification of the coalescing / caching reverse-geocoding core of
`map-picker` (`src/map-picker/map-picker.js`, class `ReverseGeocoder`,
lines 287-417).

The JavaScript class is a single-threaded event-loop state machine.  We give
it a small-step operational semantics:

* `GeoState` holds exactly the mutable fields of the class
  (`cache`, `pendingRequests`, `hasExecutedImmediately`, `pendingResolvers`,
  `lastArgs`, `debounceTimer`), together with the set of scheduled timers,
  the set of in-flight fetches, and bookkeeping (the log of all Fetcher
  dispatches, the settlement table for promises, the promise handed to each
  caller).  Promises are identified by freshly allocated naturals;
  settlement is first-write-wins, as for JS promises.
* `GEvent` is one atomic event-loop turn: a call to
  `getAddressFromCoordinates`, the settlement of an in-flight fetch
  (running the `.then`/`.finally`/`try-catch-finally` handlers), or the
  firing of a scheduled timer.  Between two events no interleaving happens,
  matching the run-to-completion semantics of the event loop.

A key is the `(lat, lng)` pair.  The source indexes its maps by the template
string `lat + "," + lng`, which is injective in the pair (the decimal
rendering of a JS number contains no comma), so the pair itself is used as
the index.

`wellTimed` singles out the traces that are realizable in real time:
timestamps are monotone, a timer fires exactly at its deadline, no event
happens after the deadline of a still-pending timer, and a fetch settles
between its dispatch and its 5000 ms abort deadline.  Counterexample traces
are checked against it; safety invariants are proved for all traces (a
superset of the realizable ones).
-/

namespace MapPicker

/-- Outcome of a settled promise. `ok v` is fulfilment with `v : Option String`
(JS `null` is `none`); `failed` is rejection (the rejection reason is never
inspected by the source, so it is not carried). -/
inductive PromResult where
  | ok (v : Option String)
  | failed
deriving DecidableEq

/-- A lookup key: the `(lat, lng)` pair (see module comment for why this is a
faithful rendering of the `lat + "," + lng` cache-key string). -/
abbrev GKey := Int × Int

/-- The constant `this.DEBOUNCE_DELAY` (map-picker.js line 291). -/
def DEBOUNCE_DELAY : Nat := 1000

/-- The fetch abort timeout (map-picker.js line 390). -/
def FETCH_TIMEOUT : Nat := 5000

/-- Kind of a scheduled timer: the `setTimeout` armed in the `.finally` of an
immediate dispatch (line 335), or the trailing-debounce `setTimeout`
(line 357). -/
inductive TimerKind where
  | slotRelease
  | debounce
deriving DecidableEq

/-- A pending `setTimeout` callback, with its absolute deadline. -/
structure Timer where
  id : Nat
  deadline : Nat
  kind : TimerKind
deriving DecidableEq

/-- What the settlement of an in-flight fetch does: an immediate dispatch
carries the promise returned to its caller (the `.then`/`.finally` chain of
line 322); a deferred dispatch is the continuation inside
`#executeTrailing` (line 372). -/
inductive FlightKind where
  | immediate (prom : Nat)
  | deferred
deriving DecidableEq

/-- An in-flight call to the Fetcher (`#fetchAddress`). -/
structure Flight where
  id : Nat
  key : GKey
  start : Nat
  kind : FlightKind
deriving DecidableEq

/-- One entry of the log of all Fetcher dispatches ever made. -/
structure FetchRec where
  id : Nat
  key : GKey
  time : Nat
  trailing : Bool
deriving DecidableEq

/-- The full machine state; the first six fields are the instance fields of
`ReverseGeocoder` (constructor, lines 288-297). -/
structure GeoState where
  cache : List (GKey × Option String)
  pendingRequests : List (GKey × Nat)
  hasExecutedImmediately : Bool
  pendingResolvers : List Nat
  lastArgs : Option GKey
  debounceTimer : Option Nat
  timers : List Timer
  inflight : List Flight
  fetchLog : List FetchRec
  promSettled : List (Nat × PromResult)
  waiterProms : List Nat
  callLog : List (Nat × Nat)
  nextProm : Nat
  nextFetch : Nat
  nextTimer : Nat
deriving DecidableEq

/-- Association-list lookup (JS `Map.get` / `Map.has`; first match wins, and
`Map.set` is modelled by prepending, so the newest binding shadows). -/
def alookup {κ α : Type} [DecidableEq κ] : List (κ × α) → κ → Option α
  | [], _ => none
  | (k, v) :: r, key => if k = key then some v else alookup r key

/-- Association-list removal of every binding of a key (JS `Map.delete`). -/
def aremove {κ α : Type} [DecidableEq κ] : List (κ × α) → κ → List (κ × α)
  | [], _ => []
  | (k, v) :: r, key =>
    if k = key then aremove r key else (k, v) :: aremove r key

/-- Find an element by its `id` projection. -/
def findById {α : Type} (idOf : α → Nat) : List α → Nat → Option α
  | [], _ => none
  | x :: r, i => if idOf x = i then some x else findById idOf r i

/-- Remove an element by its `id` projection (ids are allocated freshly, so
at most one element is ever removed on reachable states). -/
def removeById {α : Type} (idOf : α → Nat) : List α → Nat → List α
  | [], _ => []
  | x :: r, i =>
    if idOf x = i then removeById idOf r i else x :: removeById idOf r i

/-- Settle a promise: JS promise resolution is first-write-wins, a second
`resolve`/rejection of an already settled promise is a no-op. -/
def settleProm (tbl : List (Nat × PromResult)) (p : Nat) (r : PromResult) :
    List (Nat × PromResult) :=
  match alookup tbl p with
  | some _ => tbl
  | none => (p, r) :: tbl

/-- The loop `this.pendingResolvers.forEach(resolve => resolve(r))` (lines 328, 374,
376): settle every queued waiter promise with `r`, in queue order. -/
def resolveAll : List Nat → PromResult → List (Nat × PromResult) →
    List (Nat × PromResult)
  | [], _, tbl => tbl
  | w :: ws, r, tbl => resolveAll ws r (settleProm tbl w r)

/-- The synchronous part of `#executeTrailing` (lines 365-372): bail out when
`lastArgs` is null, otherwise dispatch `#fetchAddress` for the captured key.
Draining of the resolvers, the `pendingRequests` cleanup and the clearing of
`lastArgs` happen only when that fetch settles (they sit after the `await`). -/
def executeTrailing (s : GeoState) (t : Nat) : GeoState :=
  match s.lastArgs with
  | none => s
  | some k =>
    { s with
      inflight := s.inflight ++ [⟨s.nextFetch, k, t, .deferred⟩],
      fetchLog := s.fetchLog ++ [⟨s.nextFetch, k, t, true⟩],
      nextFetch := s.nextFetch + 1 }

/-- The method `getAddressFromCoordinates(lat, lng)` (lines 305-362), which runs
synchronously up to the dispatch of `#fetchAddress` or the `return`:
1. cache hit: return the cached value (a fresh already-fulfilled promise);
2. pending hit: return the stored in-flight promise;
3. `!hasExecutedImmediately`: set the flag, dispatch the fetch, store the
   chained promise in `pendingRequests`, return it;
4. otherwise: queue a fresh resolver, overwrite `lastArgs`, clear and re-arm
   the trailing debounce timer, return the new promise. -/
def stepLookup (s : GeoState) (t cid : Nat) (k : GKey) : GeoState :=
  match alookup s.cache k with
  | some v =>
    { s with
      promSettled := (s.nextProm, PromResult.ok v) :: s.promSettled,
      callLog := (cid, s.nextProm) :: s.callLog,
      nextProm := s.nextProm + 1 }
  | none =>
    match alookup s.pendingRequests k with
    | some p => { s with callLog := (cid, p) :: s.callLog }
    | none =>
      if s.hasExecutedImmediately then
        { s with
          lastArgs := some k,
          pendingResolvers := s.pendingResolvers ++ [s.nextProm],
          waiterProms := s.nextProm :: s.waiterProms,
          callLog := (cid, s.nextProm) :: s.callLog,
          timers :=
            (match s.debounceTimer with
             | none => s.timers
             | some tid => removeById Timer.id s.timers tid) ++
            [⟨s.nextTimer, t + DEBOUNCE_DELAY, .debounce⟩],
          debounceTimer := some s.nextTimer,
          nextProm := s.nextProm + 1,
          nextTimer := s.nextTimer + 1 }
      else
        { s with
          hasExecutedImmediately := true,
          pendingRequests := (k, s.nextProm) :: s.pendingRequests,
          inflight := s.inflight ++ [⟨s.nextFetch, k, t, .immediate s.nextProm⟩],
          fetchLog := s.fetchLog ++ [⟨s.nextFetch, k, t, false⟩],
          callLog := (cid, s.nextProm) :: s.callLog,
          nextProm := s.nextProm + 1,
          nextFetch := s.nextFetch + 1 }

/-- Settlement of the in-flight fetch `fid` with outcome `res`.

For an immediate dispatch this runs the `.then` handler (lines 323-332; on
fulfilment only: cache the result, delete the pending entry, resolve every
queued resolver with the result, clear the queue) and the `.finally` handler
(lines 333-342: arm the slot-release timer in either case); the chained
promise then settles with `res`.  On rejection the `.then` handler is
skipped, so the pending entry survives and the resolvers are untouched.

For a deferred dispatch this runs the rest of `#executeTrailing`
(lines 371-381): on fulfilment cache the result and resolve every resolver
with it, on rejection resolve every resolver with `null`; in both cases
clear the resolvers, delete the pending entry for the captured key, and
clear `lastArgs`. -/
def stepSettle (s : GeoState) (t fid : Nat) (res : PromResult) : GeoState :=
  match findById Flight.id s.inflight fid with
  | none => s
  | some f =>
    let s1 := { s with inflight := removeById Flight.id s.inflight fid }
    match f.kind with
    | .immediate p =>
      match res with
      | .ok v =>
        { s1 with
          cache := (f.key, v) :: s1.cache,
          pendingRequests := aremove s1.pendingRequests f.key,
          promSettled :=
            settleProm (resolveAll s1.pendingResolvers (PromResult.ok v)
              s1.promSettled) p (PromResult.ok v),
          pendingResolvers := [],
          timers := s1.timers ++ [⟨s1.nextTimer, t + DEBOUNCE_DELAY, .slotRelease⟩],
          nextTimer := s1.nextTimer + 1 }
      | .failed =>
        { s1 with
          promSettled := settleProm s1.promSettled p PromResult.failed,
          timers := s1.timers ++ [⟨s1.nextTimer, t + DEBOUNCE_DELAY, .slotRelease⟩],
          nextTimer := s1.nextTimer + 1 }
    | .deferred =>
      match res with
      | .ok v =>
        { s1 with
          cache := (f.key, v) :: s1.cache,
          promSettled := resolveAll s1.pendingResolvers (PromResult.ok v) s1.promSettled,
          pendingResolvers := [],
          pendingRequests := aremove s1.pendingRequests f.key,
          lastArgs := none }
      | .failed =>
        { s1 with
          promSettled := resolveAll s1.pendingResolvers (PromResult.ok none) s1.promSettled,
          pendingResolvers := [],
          pendingRequests := aremove s1.pendingRequests f.key,
          lastArgs := none }

/-- Firing of the pending timer `tid`.  A slot-release timer runs lines
335-341: reset `hasExecutedImmediately` and, when resolvers are queued and
`lastArgs` is set, run `#executeTrailing`.  The debounce timer runs
`#executeTrailing` directly (line 358), whose only guard is `lastArgs`. -/
def stepFire (s : GeoState) (t tid : Nat) : GeoState :=
  match findById Timer.id s.timers tid with
  | none => s
  | some tm =>
    let s1 := { s with timers := removeById Timer.id s.timers tid }
    match tm.kind with
    | .slotRelease =>
      let s2 := { s1 with hasExecutedImmediately := false }
      match s2.pendingResolvers, s2.lastArgs with
      | _ :: _, some _ => executeTrailing s2 t
      | _, _ => s2
    | .debounce => executeTrailing s1 t

/-- One atomic event-loop turn. -/
inductive GEvent where
  | look (t cid : Nat) (key : GKey)
  | settle (t fid : Nat) (res : PromResult)
  | fire (t tid : Nat)
deriving DecidableEq

/-- Timestamp of an event. -/
def eventTime : GEvent → Nat
  | .look t _ _ => t
  | .settle t _ _ => t
  | .fire t _ => t

def step (s : GeoState) : GEvent → GeoState
  | .look t cid k => stepLookup s t cid k
  | .settle t fid r => stepSettle s t fid r
  | .fire t tid => stepFire s t tid

/-- The state built by the constructor (lines 288-297). -/
def initState : GeoState :=
  ⟨[], [], false, [], none, none, [], [], [], [], [], [], 0, 0, 0⟩

def runFrom (s : GeoState) : List GEvent → GeoState
  | [] => s
  | e :: es => runFrom (step s e) es

/-- The state after a trace of event-loop turns, starting from the fresh
singleton `geocoder` (line 419). -/
def run (tr : List GEvent) : GeoState := runFrom initState tr

/-- Every pending timer deadline lies at or after `t`. -/
def timersOK (l : List Timer) (t : Nat) : Bool :=
  match l with
  | [] => true
  | tm :: r => decide (t ≤ tm.deadline) && timersOK r t

/-- Every in-flight fetch is within its 5000 ms abort window at time `t`. -/
def flightsOK (l : List Flight) (t : Nat) : Bool :=
  match l with
  | [] => true
  | f :: r => decide (t ≤ f.start + FETCH_TIMEOUT) && flightsOK r t

/-- Realizability of one event in state `s` with previous timestamp `tprev`:
time is monotone; no pending timer deadline and no fetch abort deadline has
been silently passed; a settle event names an in-flight fetch and happens
inside its abort window; a fire event names a pending timer and happens
exactly at its deadline. -/
def eventOK (s : GeoState) (tprev : Nat) (e : GEvent) : Bool :=
  let t := eventTime e
  decide (tprev ≤ t) && timersOK s.timers t && flightsOK s.inflight t &&
  (match e with
   | .look _ _ _ => true
   | .settle _ fid _ =>
     match findById Flight.id s.inflight fid with
     | some f => decide (f.start ≤ t) && decide (t ≤ f.start + FETCH_TIMEOUT)
     | none => false
   | .fire _ tid =>
     match findById Timer.id s.timers tid with
     | some tm => decide (t = tm.deadline)
     | none => false)

def wellTimedFrom (s : GeoState) (tprev : Nat) : List GEvent → Bool
  | [] => true
  | e :: es => eventOK s tprev e && wellTimedFrom (step s e) (eventTime e) es

/-- A trace is realizable under real event-loop timing. -/
def wellTimed (tr : List GEvent) : Bool := wellTimedFrom initState 0 tr

/-- Is an in-flight fetch an immediate dispatch? -/
def isImmediateFlight (f : Flight) : Bool :=
  match f.kind with
  | .immediate _ => true
  | .deferred => false

/-- Number of immediate dispatches currently in flight. -/
def countImmediate (s : GeoState) : Nat :=
  s.inflight.countP isImmediateFlight

/-- Is a pending timer a slot-release timer? -/
def isSlotRelease (tm : Timer) : Bool :=
  match tm.kind with
  | .slotRelease => true
  | .debounce => false

/-- Number of pending slot-release timers. -/
def countSlotRelease (s : GeoState) : Nat :=
  s.timers.countP isSlotRelease

/-- All dispatches ever made for key `k`, in dispatch order. -/
def fetchesFor (s : GeoState) (k : GKey) : List FetchRec :=
  s.fetchLog.filter (fun r => decide (r.key = k))

/-! Concrete keys used by the concrete traces below. -/

def keyX : GKey := (0, 0)

def keyA : GKey := (1, 0)

def keyB : GKey := (2, 0)

def keyC : GKey := (3, 0)

/-- The burst scenario of the spec: `lookup(A)`, `lookup(B)` 100 ms later,
`lookup(C)` 200 ms after that, all before the immediate dispatch for A
settles; the immediate dispatch then settles successfully (with `vA`) at
400 ms, the trailing debounce timer fires 1000 ms after the `C` call, its
deferred dispatch for C resolves `vC`, and the slot-release timer fires
1000 ms after the immediate settlement. -/
def c1tr (vA vC : Option String) : List GEvent :=
  [ .look 0 0 keyA,
    .look 100 1 keyB,
    .look 300 2 keyC,
    .settle 400 0 (.ok vA),
    .fire 1300 1,
    .settle 1350 1 (.ok vC),
    .fire 1400 2 ]

/-- A slow immediate dispatch for A (still in flight at 1100 ms, well inside
its 5000 ms window), a queued call for B at 100 ms, and the trailing timer
firing at 1100 ms. -/
def c2tr : List GEvent :=
  [ .look 0 0 keyA,
    .look 100 1 keyB,
    .fire 1100 0 ]

/-- Trace where `lookup(B)` is queued during A's busy window and resolved at 200 ms with
A's value; the deferred dispatch for B fails, so B is never cached; after
the slot frees, a second `lookup(B)` arrives. -/
def c3tr : List GEvent :=
  [ .look 0 0 keyA,
    .look 100 1 keyB,
    .settle 200 0 (.ok (some "vA")),
    .fire 1100 0,
    .settle 1150 1 .failed,
    .fire 1200 1,
    .look 1250 2 keyB ]

/-- A race in which the trailing timer re-dispatches a key that is already
cached: `lookup(X)` settles fast; `lookup(A)` is queued (arming the trailing
timer for 1100 ms); the slot-release timer at 1050 ms starts a deferred
dispatch for A and leaves `lastArgs` set; a fresh `lookup(A)` at 1060 ms
(cache miss, no pending entry, slot free) dispatches immediately and settles
at 1080 ms, caching A; the trailing timer then fires at 1100 ms with
`lastArgs` still `A`. -/
def c4tr : List GEvent :=
  [ .look 0 0 keyX,
    .settle 50 0 (.ok (some "vX")),
    .look 100 1 keyA,
    .fire 1050 0,
    .look 1060 2 keyA,
    .settle 1080 2 (.ok (some "vA2")),
    .fire 1100 1 ]

/-- Same race as `c4tr` but the immediate dispatch for A fails (leaving its
pending entry behind); the deferred dispatches for A fail too, and the one
started at 1050 ms removes the pending entry when it settles at 1200 ms; a
later `lookup(A)` is then queued afresh, and the slot-release timer at
2080 ms dispatches yet another fetch for A. -/
def c5tr : List GEvent :=
  [ .look 0 0 keyX,
    .settle 50 0 (.ok (some "vX")),
    .look 100 1 keyA,
    .fire 1050 0,
    .look 1060 2 keyA,
    .settle 1080 2 .failed,
    .fire 1100 1,
    .settle 1200 1 .failed,
    .settle 1300 3 .failed,
    .look 1400 3 keyA,
    .fire 2080 2 ]

/-- The immediate dispatch for A fails at 200 ms (so the waiter queued for B
stays queued); the trailing timer fires at 1100 ms and starts a deferred
dispatch for B; while that fetch is still in flight the slot-release timer
fires at 1200 ms, finds the queue non-empty and `lastArgs` still set, and
starts a second deferred dispatch for B. -/
def c7tr : List GEvent :=
  [ .look 0 0 keyA,
    .look 100 1 keyB,
    .settle 200 0 .failed,
    .fire 1100 0,
    .fire 1200 1 ]

/-- Two concurrent `lookup(B)` calls, both queued during X's busy window
(the immediate dispatch for X fails, so the queue survives); the trailing
timer and the slot-release timer each start a deferred dispatch for B before
either B call settles. -/
def c8tr : List GEvent :=
  [ .look 0 0 keyX,
    .look 100 1 keyB,
    .look 200 2 keyB,
    .settle 400 0 .failed,
    .fire 1200 1,
    .fire 1400 2 ]

/-- Both Fetcher calls fail, yet the queued waiter is resolved (with `null`)
rather than rejected. -/
def c10tr : List GEvent :=
  [ .look 0 0 keyA,
    .look 100 1 keyB,
    .settle 200 0 .failed,
    .fire 1100 0,
    .settle 1150 1 .failed ]

/-- Trace of `n` calls to `getAddressFromCoordinates` for the same key `k` (caller ids
`n`, `n-1`, ..., `1`), all at time 0, i.e. all before anything settles. -/
def attachEvents (k : GKey) : Nat → List GEvent
  | 0 => []
  | n + 1 => .look 0 (n + 1) k :: attachEvents k n

/-- The state right after a first `lookup(k)` on the fresh geocoder: an
immediate dispatch for `k` is in flight, its chained promise (id 0) is
registered in `pendingRequests`. -/
def attachStart (k : GKey) : GeoState :=
  ⟨[], [(k, 0)], true, [], none, none, [], [⟨0, k, 0, .immediate 0⟩],
   [⟨0, k, 0, false⟩], [], [], [(0, 0)], 1, 1, 0⟩

/-- Inductive invariant behind the slot discipline: at most one immediate
dispatch is in flight and at most one slot-release timer is pending; when
the `hasExecutedImmediately` flag is down there is neither; while an
immediate dispatch is in flight no slot-release timer is pending. -/
def Inv2 (s : GeoState) : Prop :=
  countImmediate s ≤ 1 ∧ countSlotRelease s ≤ 1 ∧
  (s.hasExecutedImmediately = false →
    countImmediate s = 0 ∧ countSlotRelease s = 0) ∧
  (1 ≤ countImmediate s → countSlotRelease s = 0)

/-- Inductive invariant behind the no-rejection property of waiter promises:
waiter promises are only ever settled fulfilled; settled promise ids and
waiter ids are below the allocation counter; the promise of an in-flight
immediate dispatch is not a waiter promise; every queued resolver is a
waiter promise. -/
def Inv10 (s : GeoState) : Prop :=
  (∀ w, w ∈ s.waiterProms → ∀ r, (w, r) ∈ s.promSettled →
    ∃ v, r = PromResult.ok v) ∧
  (∀ q r, (q, r) ∈ s.promSettled → q < s.nextProm) ∧
  (∀ w, w ∈ s.waiterProms → w < s.nextProm) ∧
  (∀ fl, fl ∈ s.inflight → ∀ p, fl.kind = FlightKind.immediate p →
    p < s.nextProm ∧ p ∉ s.waiterProms) ∧
  (∀ w, w ∈ s.pendingResolvers → w ∈ s.waiterProms)

/-- Witness state: key A cached with value `"v"`. -/
def wState3 : GeoState := { initState with cache := [(keyA, some "v")] }

/-- Witness state: key B cached with value `"w"`. -/
def wState4 : GeoState := { initState with cache := [(keyB, some "w")] }

/-- Witness state: an immediate dispatch for A in flight, its promise (id 0)
pending in `pendingRequests`. -/
def wState5 : GeoState :=
  { initState with
    inflight := [⟨0, keyA, 0, .immediate 0⟩],
    pendingRequests := [(keyA, 0)],
    hasExecutedImmediately := true,
    callLog := [(0, 0)],
    nextProm := 1, nextFetch := 1 }

/-- Witness state: an immediate dispatch for A in flight while a waiter
(promise 1, queued for key B) waits. -/
def wState6 : GeoState :=
  { initState with
    inflight := [⟨0, keyA, 0, .immediate 0⟩],
    pendingRequests := [(keyA, 0)],
    hasExecutedImmediately := true,
    pendingResolvers := [1],
    waiterProms := [1],
    lastArgs := some keyB,
    nextProm := 2, nextFetch := 1 }

/-- Witness state: a deferred dispatch for B in flight while a waiter
(promise 1) waits. -/
def wState6b : GeoState :=
  { initState with
    inflight := [⟨1, keyB, 1100, .deferred⟩],
    hasExecutedImmediately := true,
    pendingResolvers := [1],
    waiterProms := [1],
    lastArgs := some keyB,
    nextProm := 2, nextFetch := 2 }

/-- Witness state: a pending debounce timer with `lastArgs` already cleared,
and a pending slot-release timer with the waiter queue already drained. -/
def wState7 : GeoState :=
  { initState with
    hasExecutedImmediately := true,
    timers := [⟨0, 1100, .debounce⟩, ⟨1, 1200, .slotRelease⟩],
    debounceTimer := some 0,
    nextTimer := 2 }

/-- Witness state: an immediate dispatch for A in flight while a waiter
(promise 1, queued for key B, a key differing from A) waits. -/
def wState9 : GeoState :=
  { initState with
    inflight := [⟨0, keyA, 0, .immediate 0⟩],
    pendingRequests := [(keyA, 0)],
    hasExecutedImmediately := true,
    pendingResolvers := [1],
    waiterProms := [1],
    lastArgs := some keyB,
    nextProm := 2, nextFetch := 1 }

/-! Helper lemmas about the list-level operations. -/

lemma alookup_some_mem {κ α : Type} [DecidableEq κ] :
    ∀ (tbl : List (κ × α)) (k : κ) (v : α),
      alookup tbl k = some v → (k, v) ∈ tbl := by
  intro tbl k v h
  induction tbl with
  | nil => simp [alookup] at h
  | cons hd tl ih =>
    obtain ⟨k0, v0⟩ := hd
    by_cases hk : k0 = k
    · subst hk
      simp [alookup] at h
      subst h
      exact List.mem_cons_self _ _
    · simp only [alookup, if_neg hk] at h
      exact List.mem_cons_of_mem _ (ih h)

lemma mem_settleProm (tbl : List (Nat × PromResult)) (p : Nat) (r : PromResult)
    (q : Nat) (r2 : PromResult) (h : (q, r2) ∈ settleProm tbl p r) :
    (q, r2) ∈ tbl ∨ (q = p ∧ r2 = r) := by
  unfold settleProm at h
  cases hl : alookup tbl p with
  | some v => rw [hl] at h; exact Or.inl h
  | none =>
    rw [hl] at h
    rcases List.mem_cons.mp h with h1 | h2
    · right
      have h3 := Prod.mk.injEq .. ▸ h1
      exact ⟨congrArg Prod.fst h1, congrArg Prod.snd h1⟩
    · exact Or.inl h2

lemma mem_resolveAll :
    ∀ (ws : List Nat) (r : PromResult) (tbl : List (Nat × PromResult))
      (q : Nat) (r2 : PromResult), (q, r2) ∈ resolveAll ws r tbl →
      (q, r2) ∈ tbl ∨ (q ∈ ws ∧ r2 = r) := by
  intro ws
  induction ws with
  | nil => intro r tbl q r2 h; exact Or.inl h
  | cons w ws ih =>
    intro r tbl q r2 h
    simp only [resolveAll] at h
    rcases ih r (settleProm tbl w r) q r2 h with h1 | h2
    · rcases mem_settleProm tbl w r q r2 h1 with h3 | ⟨hq, hr⟩
      · exact Or.inl h3
      · exact Or.inr ⟨by simp [hq], hr⟩
    · exact Or.inr ⟨List.mem_cons_of_mem _ h2.1, h2.2⟩

lemma alookup_settleProm_preserve (tbl : List (Nat × PromResult)) (q : Nat)
    (r2 : PromResult) (w : Nat) (r : PromResult) (h : alookup tbl w = some r) :
    alookup (settleProm tbl q r2) w = some r := by
  unfold settleProm
  cases hl : alookup tbl q with
  | some v => exact h
  | none =>
    have hqw : ¬ q = w := fun he => by rw [he, h] at hl; cases hl
    simp only [alookup, if_neg hqw]
    exact h

lemma resolveAll_preserve :
    ∀ (ws : List Nat) (r2 : PromResult) (tbl : List (Nat × PromResult))
      (w : Nat) (r : PromResult), alookup tbl w = some r →
      alookup (resolveAll ws r2 tbl) w = some r := by
  intro ws
  induction ws with
  | nil => intro r2 tbl w r h; exact h
  | cons w0 ws ih =>
    intro r2 tbl w r h
    simp only [resolveAll]
    exact ih r2 _ w r (alookup_settleProm_preserve tbl w0 r2 w r h)

lemma resolveAll_mem_none :
    ∀ (ws : List Nat) (r : PromResult) (tbl : List (Nat × PromResult))
      (w : Nat), w ∈ ws → alookup tbl w = none →
      alookup (resolveAll ws r tbl) w = some r := by
  intro ws
  induction ws with
  | nil => intro r tbl w h; exact absurd h (List.not_mem_nil w)
  | cons w0 ws ih =>
    intro r tbl w hmem hnone
    simp only [resolveAll]
    by_cases hw : w0 = w
    · subst hw
      have hset : settleProm tbl w0 r = (w0, r) :: tbl := by
        unfold settleProm; rw [hnone]
      rw [hset]
      exact resolveAll_preserve ws r _ w0 r (by simp [alookup])
    · have h2 : alookup (settleProm tbl w0 r) w = none := by
        unfold settleProm
        cases hl : alookup tbl w0 with
        | some v => exact hnone
        | none => simp only [alookup, if_neg hw]; exact hnone
      have hmem2 : w ∈ ws := by
        rcases List.mem_cons.mp hmem with h | h
        · exact absurd h.symm hw
        · exact h
      exact ih r _ w hmem2 h2

lemma mem_of_findById {α : Type} (idOf : α → Nat) :
    ∀ (l : List α) (i : Nat) (x : α), findById idOf l i = some x → x ∈ l := by
  intro l i x h
  induction l with
  | nil => simp [findById] at h
  | cons y r ih =>
    simp only [findById] at h
    by_cases hy : idOf y = i
    · rw [if_pos hy] at h
      injection h with h
      subst h
      exact List.mem_cons_self _ _
    · rw [if_neg hy] at h
      exact List.mem_cons_of_mem _ (ih h)

lemma mem_of_mem_removeById {α : Type} (idOf : α → Nat) :
    ∀ (l : List α) (i : Nat) (x : α), x ∈ removeById idOf l i → x ∈ l := by
  intro l i x h
  induction l with
  | nil => simp [removeById] at h
  | cons y r ih =>
    simp only [removeById] at h
    by_cases hy : idOf y = i
    · rw [if_pos hy] at h
      exact List.mem_cons_of_mem _ (ih h)
    · rw [if_neg hy] at h
      rcases List.mem_cons.mp h with h1 | h2
      · exact h1 ▸ List.mem_cons_self _ _
      · exact List.mem_cons_of_mem _ (ih h2)

lemma countP_removeById_le {α : Type} (p : α → Bool) (idOf : α → Nat) :
    ∀ (l : List α) (i : Nat),
      (removeById idOf l i).countP p ≤ l.countP p := by
  intro l i
  induction l with
  | nil => simp [removeById]
  | cons y r ih =>
    simp only [removeById]
    by_cases hy : idOf y = i
    · rw [if_pos hy, List.countP_cons]
      exact le_trans ih (Nat.le_add_right _ _)
    · rw [if_neg hy, List.countP_cons, List.countP_cons]
      exact Nat.add_le_add_right ih _

lemma countP_pos_of_findById {α : Type} (p : α → Bool) (idOf : α → Nat) :
    ∀ (l : List α) (i : Nat) (x : α),
      findById idOf l i = some x → p x = true → 1 ≤ l.countP p := by
  intro l i x
  induction l with
  | nil => intro h _; simp [findById] at h
  | cons y r ih =>
    intro h hp
    simp only [findById] at h
    by_cases hy : idOf y = i
    · rw [if_pos hy] at h
      injection h with h
      subst h
      rw [List.countP_cons, hp]
      simp
    · rw [if_neg hy] at h
      have := ih h hp
      rw [List.countP_cons]
      exact le_trans this (Nat.le_add_right _ _)

lemma countP_removeById_zero {α : Type} (p : α → Bool) (idOf : α → Nat) :
    ∀ (l : List α) (i : Nat) (x : α),
      findById idOf l i = some x → p x = true → l.countP p ≤ 1 →
      (removeById idOf l i).countP p = 0 := by
  intro l i x
  induction l with
  | nil => intro h _ _; simp [findById] at h
  | cons y r ih =>
    intro hf hp hle
    simp only [findById] at hf
    simp only [removeById]
    by_cases hy : idOf y = i
    · rw [if_pos hy] at hf
      injection hf with hf
      subst hf
      rw [if_pos hy]
      rw [List.countP_cons] at hle
      have hone : (if p y = true then 1 else 0) = 1 := by simp [hp]
      rw [hone] at hle
      have h1 : r.countP p = 0 := by omega
      have h2 := countP_removeById_le p idOf r i
      omega
    · rw [if_neg hy] at hf
      rw [if_neg hy, List.countP_cons]
      have h1 : 1 ≤ r.countP p := countP_pos_of_findById p idOf r i x hf hp
      rw [List.countP_cons] at hle
      set c := (if p y = true then 1 else 0) with hc
      have h2 : r.countP p ≤ 1 := by omega
      have h3 := ih hf hp h2
      omega

lemma runFrom_append :
    ∀ (l1 l2 : List GEvent) (s : GeoState),
      runFrom s (l1 ++ l2) = runFrom (runFrom s l1) l2 := by
  intro l1
  induction l1 with
  | nil => intro l2 s; rfl
  | cons e es ih =>
    intro l2 s
    simp only [List.cons_append, runFrom]
    exact ih l2 (step s e)

/-! Counterexample traces, checked by evaluation.  Each trace is realizable
under real event-loop timing (`wellTimed`). -/

/-- C1: the burst scenario refuted.  In a realizable execution of the
spec's scenario (lookup(A), lookup(B) 100 ms later, lookup(C) 200 ms after
that, all before the immediate dispatch settles and within the quiet
window), where the immediate dispatch for A settles successfully (value
"vA") before the trailing timer fires, there are indeed exactly 2 Fetcher
calls (immediate for A, deferred for C) and C's fetch resolves "vC" and is
cached for C — but B's call (promise 1) and C's call (promise 2) both
settle with A's value "vA", not with C's resolved value "vC". -/
theorem C1_counterexample :
    wellTimed (c1tr (some "vA") (some "vC")) = true ∧
    (run (c1tr (some "vA") (some "vC"))).fetchLog =
      [⟨0, keyA, 0, false⟩, ⟨1, keyC, 1300, true⟩] ∧
    alookup (run (c1tr (some "vA") (some "vC"))).cache keyC =
      some (some "vC") ∧
    alookup (run (c1tr (some "vA") (some "vC"))).promSettled 1 =
      some (.ok (some "vA")) ∧
    alookup (run (c1tr (some "vA") (some "vC"))).promSettled 2 =
      some (.ok (some "vA")) ∧
    (some "vA" : Option String) ≠ some "vC" := by
  decide

/-- C1 (amended): in the burst scenario, when the immediate dispatch for A
settles successfully (with value `vA`) while B's and C's calls are queued,
all three calls settle with the *immediate* dispatch's value `vA` (the
`.then` handler resolves every queued resolver with its own result, lines
327-329); the total number of Fetcher calls is still exactly 2 — the
immediate one for A and, because the trailing timer only checks `lastArgs`,
a deferred one for C whose result reaches nobody. -/
theorem C1_amended (vA vC : Option String) :
    (run (c1tr vA vC)).fetchLog =
      [⟨0, keyA, 0, false⟩, ⟨1, keyC, 1300, true⟩] ∧
    alookup (run (c1tr vA vC)).promSettled 0 = some (.ok vA) ∧
    alookup (run (c1tr vA vC)).promSettled 1 = some (.ok vA) ∧
    alookup (run (c1tr vA vC)).promSettled 2 = some (.ok vA) :=
  ⟨rfl, rfl, rfl, rfl⟩

/-- C2: refuted.  In a realizable trace (immediate dispatch for A still in
flight — only 1100 ms into its 5000 ms window — when the trailing debounce
timer fires and starts the deferred dispatch for B), two Fetcher calls are
simultaneously in flight. -/
theorem C2_counterexample :
    wellTimed c2tr = true ∧
    (run c2tr).inflight =
      [⟨0, keyA, 0, .immediate 0⟩, ⟨1, keyB, 1100, .deferred⟩] ∧
    (run c2tr).inflight.length = 2 := by
  decide

/-- C3: refuted.  B's first call (promise 1) is queued as a waiter and
resolves at 200 ms with A's value "vA"; B itself is never cached (the
deferred dispatch for B fails), so a subsequent `lookup(B)` at 1250 ms —
after the first `lookup(B)` has resolved — triggers a further Fetcher call
for B (fetch 2) instead of returning the earlier value. -/
theorem C3_counterexample :
    wellTimed c3tr = true ∧
    alookup (run (c3tr.take 3)).promSettled 1 = some (.ok (some "vA")) ∧
    alookup (run c3tr).callLog 1 = some 1 ∧
    (run c3tr).fetchLog =
      [⟨0, keyA, 0, false⟩, ⟨1, keyB, 1100, true⟩, ⟨2, keyB, 1250, false⟩] ∧
    alookup (run c3tr).callLog 2 = some 2 ∧
    alookup (run c3tr).promSettled 2 = none := by
  decide

/-- C4: refuted.  After the sixth event of `c4tr` the cache maps A to
"vA2", yet the seventh event (the trailing timer, with `lastArgs` still
`A`) dispatches fetch 3 for the already-cached key A. -/
theorem C4_counterexample :
    wellTimed c4tr = true ∧
    alookup (run (c4tr.take 6)).cache keyA = some (some "vA2") ∧
    (run c4tr).fetchLog =
      [⟨0, keyX, 0, false⟩, ⟨1, keyA, 1050, true⟩,
       ⟨2, keyA, 1060, false⟩, ⟨3, keyA, 1100, true⟩] := by
  decide

/-- C5: refuted.  The immediate dispatch for A (fetch 2, promise 2) fails at
1080 ms and its pending entry survives that failure (still present after
event 6) — but the deferred dispatch for A started at 1050 ms removes the
entry when it settles at 1200 ms (gone after event 8); the later
`lookup(A)` (caller 3) is then *not* handed the failed promise 2 — it gets
the fresh waiter promise 3 — and the slot-release timer at 2080 ms starts
yet another Fetcher call for A (fetch 4). -/
theorem C5_counterexample :
    wellTimed c5tr = true ∧
    alookup (run (c5tr.take 6)).pendingRequests keyA = some 2 ∧
    alookup (run (c5tr.take 8)).pendingRequests keyA = none ∧
    alookup (run c5tr).callLog 3 = some 3 ∧
    alookup (run c5tr).callLog 2 = some 2 ∧
    (3 : Nat) ≠ 2 ∧
    (run c5tr).fetchLog =
      [⟨0, keyX, 0, false⟩, ⟨1, keyA, 1050, true⟩, ⟨2, keyA, 1060, false⟩,
       ⟨3, keyA, 1100, true⟩, ⟨4, keyA, 2080, true⟩] := by
  decide

/-- C7: refuted.  The trailing debounce timer fires first (1100 ms) and
starts the deferred dispatch for B; while that fetch is still in flight the
slot-release timer fires (1200 ms), finds the waiter queue still non-empty
(draining only happens when the deferred fetch settles) and `lastArgs`
still set, and performs a *second* Fetcher call for B — the later-firing
timer is not a no-op. -/
theorem C7_counterexample :
    wellTimed c7tr = true ∧
    (run c7tr).fetchLog =
      [⟨0, keyA, 0, false⟩, ⟨1, keyB, 1100, true⟩, ⟨2, keyB, 1200, true⟩] := by
  decide

/-- C8: refuted.  Two concurrent `lookup(B)` calls issued while the slot is
busy (both still unsettled at the end of the trace, so they were issued
before the first of them settles) do not attach to one handle — they get
distinct waiter promises 1 and 2, there is no in-flight handle for B when
they arrive — and they result in two Fetcher calls for B, not one. -/
theorem C8_counterexample :
    wellTimed c8tr = true ∧
    (fetchesFor (run c8tr) keyB).length = 2 ∧
    alookup (run c8tr).callLog 1 = some 1 ∧
    alookup (run c8tr).callLog 2 = some 2 ∧
    (1 : Nat) ≠ 2 ∧
    alookup (run c8tr).promSettled 1 = none ∧
    alookup (run c8tr).promSettled 2 = none := by
  decide

/-- C3 (amended): once the cache maps `k` to `v` — which happens exactly when
a dispatch *for k* settles successfully — every subsequent `lookup(k)`
returns a promise fulfilled with that cached `v` and performs no Fetcher
call; but a `lookup(k)` call that was resolved as a queued Waiter may have
been resolved with another key's value (or `null`) without `k` being cached,
and a later `lookup(k)` may then dispatch anew. -/
theorem C3_amended (s : GeoState) (t cid : Nat) (k : GKey) (v : Option String)
    (h : alookup s.cache k = some v) :
    (step s (.look t cid k)).fetchLog = s.fetchLog ∧
    (step s (.look t cid k)).inflight = s.inflight ∧
    alookup (step s (.look t cid k)).callLog cid = some s.nextProm ∧
    alookup (step s (.look t cid k)).promSettled s.nextProm =
      some (.ok v) := by
  simp [step, stepLookup, h, alookup]

/-- C3 witness: instance of `C3_amended` at a state with A cached. -/
theorem C3_witness :
    (step wState3 (.look 10 7 keyA)).fetchLog = wState3.fetchLog ∧
    (step wState3 (.look 10 7 keyA)).inflight = wState3.inflight ∧
    alookup (step wState3 (.look 10 7 keyA)).callLog 7 = some 0 ∧
    alookup (step wState3 (.look 10 7 keyA)).promSettled 0 =
      some (.ok (some "v")) :=
  C3_amended wState3 10 7 keyA (some "v") (by decide)

/-- C4 (amended): a `lookup` call for a key present in the cache never
dispatches to the Fetcher (the cache is consulted synchronously before any
dispatch, lines 308-311); the no-re-dispatch guarantee holds for immediate
dispatches only, because `#executeTrailing` does not consult the cache
(`c4tr` exhibits a deferred re-dispatch of a cached key). -/
theorem C4_amended (s : GeoState) (t cid : Nat) (k : GKey) (v : Option String)
    (h : alookup s.cache k = some v) :
    (step s (.look t cid k)).fetchLog = s.fetchLog ∧
    (step s (.look t cid k)).pendingRequests = s.pendingRequests ∧
    (step s (.look t cid k)).hasExecutedImmediately =
      s.hasExecutedImmediately := by
  simp [step, stepLookup, h]

/-- C4 witness: instance of `C4_amended` at a state with B cached. -/
theorem C4_witness :
    (step wState4 (.look 3 9 keyB)).fetchLog = wState4.fetchLog ∧
    (step wState4 (.look 3 9 keyB)).pendingRequests =
      wState4.pendingRequests ∧
    (step wState4 (.look 3 9 keyB)).hasExecutedImmediately =
      wState4.hasExecutedImmediately :=
  C4_amended wState4 3 9 keyB (some "w") (by decide)

/-- C5 (amended): the failure handler of an immediate dispatch indeed never
removes the PendingEntry (the deletion sits in the skipped `.then` handler),
and while the entry persists every `lookup` for exactly that key is handed
the stored (failed) handle with no new Fetcher call; the entry is not
removed *forever*, though — a deferred dispatch for the same key (possible
when `lastArgs` was set to that key before the immediate dispatch started,
as in `c5tr`) deletes it when it settles, after which a fresh `lookup` for
the key dispatches anew. -/
theorem C5_amended :
    (∀ (s : GeoState) (t fid p : Nat) (f : Flight),
      findById Flight.id s.inflight fid = some f →
      f.kind = FlightKind.immediate p →
      (step s (.settle t fid .failed)).pendingRequests =
        s.pendingRequests) ∧
    (∀ (s : GeoState) (t cid : Nat) (k : GKey) (p : Nat),
      alookup s.cache k = none → alookup s.pendingRequests k = some p →
      (step s (.look t cid k)).fetchLog = s.fetchLog ∧
      alookup (step s (.look t cid k)).callLog cid = some p) := by
  constructor
  · intro s t fid p f h1 h2
    simp [step, stepSettle, h1, h2]
  · intro s t cid k p hc hp
    simp [step, stepLookup, hc, hp, alookup]

/-- C5 witness: instance of `C5_amended` at a state with an immediate
dispatch for A in flight. -/
theorem C5_witness :
    (step wState5 (.settle 5 0 .failed)).pendingRequests =
      wState5.pendingRequests ∧
    ((step wState5 (.look 6 3 keyA)).fetchLog = wState5.fetchLog ∧
     alookup (step wState5 (.look 6 3 keyA)).callLog 3 = some 0) :=
  ⟨C5_amended.1 wState5 5 0 0 ⟨0, keyA, 0, .immediate 0⟩ (by decide) rfl,
   C5_amended.2 wState5 6 3 keyA 0 (by decide) (by decide)⟩

/-- C6: failure propagation is asymmetric, exactly as claimed.  When the
fetch of an immediate dispatch rejects, the promise handed to that call's
caller is rejected and the queued waiters are left untouched (the `.then`
handler that would resolve them is skipped); when the fetch of a deferred
dispatch rejects, every queued waiter is resolved with the absent-value
sentinel `null` (`.ok none`), not with a failure, and the queue is
drained. -/
theorem C6_failure_asymmetry :
    (∀ (s : GeoState) (t fid p : Nat) (f : Flight),
      findById Flight.id s.inflight fid = some f →
      f.kind = FlightKind.immediate p →
      alookup s.promSettled p = none →
      alookup (step s (.settle t fid .failed)).promSettled p =
        some PromResult.failed ∧
      (step s (.settle t fid .failed)).pendingResolvers =
        s.pendingResolvers) ∧
    (∀ (s : GeoState) (t fid : Nat) (f : Flight),
      findById Flight.id s.inflight fid = some f →
      f.kind = FlightKind.deferred →
      (step s (.settle t fid .failed)).pendingResolvers = [] ∧
      ∀ w, w ∈ s.pendingResolvers → alookup s.promSettled w = none →
        alookup (step s (.settle t fid .failed)).promSettled w =
          some (PromResult.ok none)) := by
  constructor
  · intro s t fid p f h1 h2 h3
    simp [step, stepSettle, h1, h2, settleProm, h3, alookup]
  · intro s t fid f h1 h2
    refine ⟨by simp [step, stepSettle, h1, h2], ?_⟩
    intro w hw hnone
    simp only [step, stepSettle, h1, h2]
    exact resolveAll_mem_none s.pendingResolvers (PromResult.ok none)
      s.promSettled w hw hnone

/-- C6 witness: both halves of `C6_failure_asymmetry` at concrete states —
an immediate dispatch for A failing while waiter 1 is queued (the waiter
queue survives, the caller promise 0 is rejected), and a deferred dispatch
for B failing while waiter 1 is queued (the queue drains and waiter 1 is
fulfilled with `null`). -/
theorem C6_witness :
    (alookup (step wState6 (.settle 5 0 .failed)).promSettled 0 =
       some PromResult.failed ∧
     (step wState6 (.settle 5 0 .failed)).pendingResolvers =
       wState6.pendingResolvers) ∧
    ((step wState6b (.settle 1150 1 .failed)).pendingResolvers = [] ∧
     alookup (step wState6b (.settle 1150 1 .failed)).promSettled 1 =
       some (PromResult.ok none)) :=
  ⟨C6_failure_asymmetry.1 wState6 5 0 0 ⟨0, keyA, 0, .immediate 0⟩
     (by decide) rfl rfl,
   (C6_failure_asymmetry.2 wState6b 1150 1 ⟨1, keyB, 1100, .deferred⟩
     (by decide) rfl).1,
   (C6_failure_asymmetry.2 wState6b 1150 1 ⟨1, keyB, 1100, .deferred⟩
     (by decide) rfl).2 1 (by decide) rfl⟩

/-- C7 (amended): a timer whose deferred dispatch would have nothing to do
is a no-op only in these precise senses: a debounce firing with `lastArgs`
already cleared (which happens when the first timer's deferred dispatch has
*settled*) removes itself and changes nothing else; a slot-release firing
with the waiter queue already drained only lowers the busy flag.  Draining
and the clearing of `lastArgs` happen when the deferred *fetch settles*,
not when the first timer fires, so a later timer firing while the first
one's dispatch is still in flight starts a second Fetcher call (`c7tr`). -/
theorem C7_amended :
    (∀ (s : GeoState) (t tid : Nat) (tm : Timer),
      findById Timer.id s.timers tid = some tm →
      tm.kind = TimerKind.debounce → s.lastArgs = none →
      step s (.fire t tid) =
        { s with timers := removeById Timer.id s.timers tid }) ∧
    (∀ (s : GeoState) (t tid : Nat) (tm : Timer),
      findById Timer.id s.timers tid = some tm →
      tm.kind = TimerKind.slotRelease → s.pendingResolvers = [] →
      step s (.fire t tid) =
        { s with timers := removeById Timer.id s.timers tid,
                 hasExecutedImmediately := false }) := by
  constructor
  · intro s t tid tm h1 h2 h3
    simp [step, stepFire, h1, h2, executeTrailing, h3]
  · intro s t tid tm h1 h2 h3
    simp [step, stepFire, h1, h2, h3]

/-- C7 witness: instance of `C7_amended` at a state with a pending debounce
timer (`lastArgs` cleared) and a pending slot-release timer (queue
drained). -/
theorem C7_witness :
    step wState7 (.fire 1100 0) =
      { wState7 with timers := removeById Timer.id wState7.timers 0 } ∧
    step wState7 (.fire 1200 1) =
      { wState7 with timers := removeById Timer.id wState7.timers 1,
                     hasExecutedImmediately := false } :=
  ⟨C7_amended.1 wState7 1100 0 ⟨0, 1100, .debounce⟩ (by decide) rfl rfl,
   C7_amended.2 wState7 1200 1 ⟨1, 1200, .slotRelease⟩ (by decide) rfl rfl⟩

/-- C9: when an immediate dispatch for key `k` settles successfully with
value `v`, the cache maps `k` to `v`, every waiter queued at that moment
(whatever key it originally asked for) is resolved with that same `v`, and
the waiter queue is emptied. -/
theorem C9_immediate_success (s : GeoState) (t fid p : Nat) (f : Flight)
    (v : Option String)
    (h1 : findById Flight.id s.inflight fid = some f)
    (h2 : f.kind = FlightKind.immediate p) :
    alookup (step s (.settle t fid (.ok v))).cache f.key = some v ∧
    (step s (.settle t fid (.ok v))).pendingResolvers = [] ∧
    ∀ w, w ∈ s.pendingResolvers → alookup s.promSettled w = none →
      alookup (step s (.settle t fid (.ok v))).promSettled w =
        some (PromResult.ok v) := by
  refine ⟨by simp [step, stepSettle, h1, h2, alookup],
          by simp [step, stepSettle, h1, h2], ?_⟩
  intro w hw hnone
  simp only [step, stepSettle, h1, h2]
  exact alookup_settleProm_preserve _ p (PromResult.ok v) w (PromResult.ok v)
    (resolveAll_mem_none s.pendingResolvers (PromResult.ok v)
      s.promSettled w hw hnone)

/-- C9 witness: instance of `C9_immediate_success` where the queued waiter
(promise 1) was created by a call for key B, a key differing from the
dispatched key A — it is resolved with A's value all the same. -/
theorem C9_witness :
    alookup (step wState9 (.settle 200 0 (.ok (some "vA")))).cache keyA =
      some (some "vA") ∧
    (step wState9 (.settle 200 0 (.ok (some "vA")))).pendingResolvers = [] ∧
    alookup (step wState9 (.settle 200 0 (.ok (some "vA")))).promSettled 1 =
      some (PromResult.ok (some "vA")) := by
  have h := C9_immediate_success wState9 200 0 0 ⟨0, keyA, 0, .immediate 0⟩
    (some "vA") (by decide) rfl
  exact ⟨h.1, h.2.1, h.2.2 1 (by decide) rfl⟩

lemma settle_immediate_fields (s : GeoState) (t fid p : Nat) (f : Flight)
    (v : Option String)
    (h1 : findById Flight.id s.inflight fid = some f)
    (h2 : f.kind = FlightKind.immediate p) :
    (step s (.settle t fid (.ok v))).fetchLog = s.fetchLog ∧
    (step s (.settle t fid (.ok v))).callLog = s.callLog ∧
    (step s (.settle t fid (.ok v))).promSettled =
      settleProm (resolveAll s.pendingResolvers (PromResult.ok v)
        s.promSettled) p (PromResult.ok v) := by
  simp [step, stepSettle, h1, h2]

lemma c8_attach (k : GKey) (p : Nat) :
    ∀ (n : Nat) (s : GeoState), alookup s.cache k = none →
      alookup s.pendingRequests k = some p →
      (runFrom s (attachEvents k n)).cache = s.cache ∧
      (runFrom s (attachEvents k n)).pendingRequests = s.pendingRequests ∧
      (runFrom s (attachEvents k n)).fetchLog = s.fetchLog ∧
      (runFrom s (attachEvents k n)).promSettled = s.promSettled ∧
      (runFrom s (attachEvents k n)).inflight = s.inflight ∧
      (runFrom s (attachEvents k n)).pendingResolvers = s.pendingResolvers ∧
      (∀ c, 1 ≤ c → c ≤ n →
        alookup (runFrom s (attachEvents k n)).callLog c = some p) ∧
      (∀ c, n < c ∨ c = 0 →
        alookup (runFrom s (attachEvents k n)).callLog c =
          alookup s.callLog c) := by
  intro n
  induction n with
  | zero =>
    intro s hc hp
    refine ⟨rfl, rfl, rfl, rfl, rfl, rfl, ?_, ?_⟩
    · intro c h1 h2; omega
    · intro c _; rfl
  | succ n ih =>
    intro s hc hp
    have hstep : step s (GEvent.look 0 (n + 1) k) =
        { s with callLog := (n + 1, p) :: s.callLog } := by
      simp [step, stepLookup, hc, hp]
    simp only [attachEvents, runFrom, hstep]
    obtain ⟨e1, e2, e3, e4, e5, e6, e7, e8⟩ :=
      ih { s with callLog := (n + 1, p) :: s.callLog } hc hp
    refine ⟨e1, e2, e3, e4, e5, e6, ?_, ?_⟩
    · intro c h1 h2
      by_cases hcn : c ≤ n
      · exact e7 c h1 hcn
      · have hce : c = n + 1 := by omega
        rw [e8 c (Or.inl (by omega)), hce]
        simp [alookup]
    · intro c hor
      have hne : ¬ (n + 1 = c) := by
        rcases hor with h | h
        · omega
        · omega
      have hstep2 : (n : Nat) < c ∨ c = 0 := by
        rcases hor with h | h
        · exact Or.inl (by omega)
        · exact Or.inr h
      rw [e8 c hstep2]
      simp [alookup, hne]

/-- C8 (amended): when the *first* of the concurrent `lookup(k)` calls
arrives while the slot is free (and `k` is neither cached nor pending), it
dispatches immediately and registers its promise; every one of the `n`
later calls for the same key attaches to that registered in-flight promise
(ids `1..n` all map to promise 0); exactly one Fetcher call results, and
the shared promise settles with the fetched value.  (When the first call
instead arrives while the slot is busy, the calls are queued as waiters and
the single-fetch guarantee fails — see `c8tr`.) -/
theorem C8_amended (n : Nat) (k : GKey) (v : Option String) (cid : Nat)
    (hc1 : 1 ≤ cid) (hc2 : cid ≤ n) :
    (run (GEvent.look 0 0 k ::
      (attachEvents k n ++ [GEvent.settle 0 0 (.ok v)]))).fetchLog =
      [⟨0, k, 0, false⟩] ∧
    alookup (run (GEvent.look 0 0 k ::
      (attachEvents k n ++ [GEvent.settle 0 0 (.ok v)]))).promSettled 0 =
      some (PromResult.ok v) ∧
    alookup (run (GEvent.look 0 0 k ::
      (attachEvents k n ++ [GEvent.settle 0 0 (.ok v)]))).callLog 0 =
      some 0 ∧
    alookup (run (GEvent.look 0 0 k ::
      (attachEvents k n ++ [GEvent.settle 0 0 (.ok v)]))).callLog cid =
      some 0 := by
  have hstart : step initState (GEvent.look 0 0 k) = attachStart k := by
    simp [step, stepLookup, initState, attachStart, alookup]
  have hrun : run (GEvent.look 0 0 k ::
      (attachEvents k n ++ [GEvent.settle 0 0 (.ok v)])) =
      runFrom (runFrom (attachStart k) (attachEvents k n))
        [GEvent.settle 0 0 (.ok v)] := by
    rw [run, runFrom, hstart, runFrom_append]
  obtain ⟨e1, e2, e3, e4, e5, e6, e7, e8⟩ :=
    c8_attach k 0 n (attachStart k) rfl (by simp [attachStart, alookup])
  have hfind : findById Flight.id
      (runFrom (attachStart k) (attachEvents k n)).inflight 0 =
      some ⟨0, k, 0, .immediate 0⟩ := by
    rw [e5]
    simp [attachStart, findById]
  obtain ⟨f1, f2, f3⟩ := settle_immediate_fields
    (runFrom (attachStart k) (attachEvents k n)) 0 0 0
    ⟨0, k, 0, .immediate 0⟩ v hfind rfl
  rw [hrun]
  simp only [runFrom]
  refine ⟨?_, ?_, ?_, ?_⟩
  · rw [f1, e3]
    rfl
  · rw [f3, e6, e4]
    simp [attachStart, resolveAll, settleProm, alookup]
  · rw [f2, e8 0 (Or.inr rfl)]
    simp [attachStart, alookup]
  · rw [f2]
    exact e7 cid hc1 hc2

/-- C8 witness: instance of `C8_amended` with three concurrent calls
(callers 0, 1, 2) for key A. -/
theorem C8_witness :
    (run (GEvent.look 0 0 keyA ::
      (attachEvents keyA 2 ++ [GEvent.settle 0 0 (.ok (some "vA"))]))).fetchLog =
      [⟨0, keyA, 0, false⟩] ∧
    alookup (run (GEvent.look 0 0 keyA ::
      (attachEvents keyA 2 ++
        [GEvent.settle 0 0 (.ok (some "vA"))]))).promSettled 0 =
      some (PromResult.ok (some "vA")) ∧
    alookup (run (GEvent.look 0 0 keyA ::
      (attachEvents keyA 2 ++
        [GEvent.settle 0 0 (.ok (some "vA"))]))).callLog 0 = some 0 ∧
    alookup (run (GEvent.look 0 0 keyA ::
      (attachEvents keyA 2 ++
        [GEvent.settle 0 0 (.ok (some "vA"))]))).callLog 2 = some 0 :=
  C8_amended 2 keyA (some "vA") 2 (by decide) (by decide)

/-! Preservation of `Inv2` (the slot discipline on immediate dispatches). -/

lemma inv2_mono (s2 s : GeoState)
    (e1 : countImmediate s2 ≤ countImmediate s)
    (e2 : countSlotRelease s2 ≤ countSlotRelease s)
    (e3 : s2.hasExecutedImmediately = s.hasExecutedImmediately)
    (h : Inv2 s) : Inv2 s2 := by
  obtain ⟨h1, h2, h3, h4⟩ := h
  refine ⟨by omega, by omega, ?_, ?_⟩
  · intro hf
    rw [e3] at hf
    obtain ⟨a, b⟩ := h3 hf
    exact ⟨by omega, by omega⟩
  · intro hg
    have := h4 (by omega)
    omega

lemma inv2_stepLookup (s : GeoState) (t cid : Nat) (k : GKey)
    (h : Inv2 s) : Inv2 (stepLookup s t cid k) := by
  cases hc : alookup s.cache k with
  | some v =>
    refine inv2_mono _ s ?_ ?_ ?_ h
    · simp [stepLookup, hc, countImmediate]
    · simp [stepLookup, hc, countSlotRelease]
    · simp [stepLookup, hc]
  | none =>
    cases hp : alookup s.pendingRequests k with
    | some p =>
      refine inv2_mono _ s ?_ ?_ ?_ h
      · simp [stepLookup, hc, hp, countImmediate]
      · simp [stepLookup, hc, hp, countSlotRelease]
      · simp [stepLookup, hc, hp]
    | none =>
      cases hflag : s.hasExecutedImmediately with
      | true =>
        refine inv2_mono _ s ?_ ?_ ?_ h
        · simp [stepLookup, hc, hp, hflag, countImmediate]
        · cases hdt : s.debounceTimer with
          | none =>
            simp [stepLookup, hc, hp, hflag, hdt, countSlotRelease,
              List.countP_append, isSlotRelease]
          | some tid0 =>
            simp [stepLookup, hc, hp, hflag, hdt, countSlotRelease,
              List.countP_append, isSlotRelease]
            exact countP_removeById_le isSlotRelease Timer.id s.timers tid0
        · simp [stepLookup, hc, hp, hflag]
      | false =>
        obtain ⟨h1, h2, h3, h4⟩ := h
        obtain ⟨hi0, hs0⟩ := h3 hflag
        have e1 : countImmediate (stepLookup s t cid k) =
            countImmediate s + 1 := by
          simp [stepLookup, hc, hp, hflag, countImmediate,
            List.countP_append, isImmediateFlight]
        have e2 : countSlotRelease (stepLookup s t cid k) =
            countSlotRelease s := by
          simp [stepLookup, hc, hp, hflag, countSlotRelease]
        have e3 : (stepLookup s t cid k).hasExecutedImmediately = true := by
          simp [stepLookup, hc, hp, hflag]
        refine ⟨by omega, by omega, ?_, ?_⟩
        · intro hf
          rw [e3] at hf
          cases hf
        · intro _
          omega

lemma inv2_executeTrailing (s : GeoState) (t : Nat)
    (h : Inv2 s) : Inv2 (executeTrailing s t) := by
  cases hla : s.lastArgs with
  | none =>
    have hnew : executeTrailing s t = s := by simp [executeTrailing, hla]
    rw [hnew]
    exact h
  | some k =>
    refine inv2_mono _ s ?_ ?_ ?_ h
    · simp [executeTrailing, hla, countImmediate, List.countP_append,
        isImmediateFlight]
    · simp [executeTrailing, hla, countSlotRelease]
    · simp [executeTrailing, hla]

lemma inv2_stepSettle (s : GeoState) (t fid : Nat) (res : PromResult)
    (h : Inv2 s) : Inv2 (stepSettle s t fid res) := by
  cases hf : findById Flight.id s.inflight fid with
  | none =>
    have hnew : stepSettle s t fid res = s := by simp [stepSettle, hf]
    rw [hnew]
    exact h
  | some f =>
    cases hk : f.kind with
    | immediate p =>
      obtain ⟨h1, h2, h3, h4⟩ := h
      have himm : isImmediateFlight f = true := by
        simp [isImmediateFlight, hk]
      have hciPos : 1 ≤ countImmediate s :=
        countP_pos_of_findById isImmediateFlight Flight.id s.inflight fid f
          hf himm
      have hcs0 : countSlotRelease s = 0 := h4 hciPos
      have hflagT : s.hasExecutedImmediately = true := by
        cases hfl : s.hasExecutedImmediately with
        | false => have := (h3 hfl).1; omega
        | true => rfl
      have hrem : (removeById Flight.id s.inflight fid).countP
          isImmediateFlight = 0 :=
        countP_removeById_zero isImmediateFlight Flight.id s.inflight fid f
          hf himm h1
      have e1 : countImmediate (stepSettle s t fid res) = 0 := by
        cases res with
        | ok v => simp [stepSettle, hf, hk, countImmediate]; simpa using hrem
        | failed => simp [stepSettle, hf, hk, countImmediate]; simpa using hrem
      have e2 : countSlotRelease (stepSettle s t fid res) =
          countSlotRelease s + 1 := by
        cases res with
        | ok v =>
          simp [stepSettle, hf, hk, countSlotRelease, List.countP_append,
            isSlotRelease]
        | failed =>
          simp [stepSettle, hf, hk, countSlotRelease, List.countP_append,
            isSlotRelease]
      have e3 : (stepSettle s t fid res).hasExecutedImmediately =
          s.hasExecutedImmediately := by
        cases res with
        | ok v => simp [stepSettle, hf, hk]
        | failed => simp [stepSettle, hf, hk]
      refine ⟨by omega, by omega, ?_, ?_⟩
      · intro hfX
        rw [e3, hflagT] at hfX
        cases hfX
      · intro hg
        omega
    | deferred =>
      have hciLe : (removeById Flight.id s.inflight fid).countP
          isImmediateFlight ≤ countImmediate s :=
        countP_removeById_le isImmediateFlight Flight.id s.inflight fid
      refine inv2_mono _ s ?_ ?_ ?_ h
      · cases res with
        | ok v => simp [stepSettle, hf, hk, countImmediate]; exact hciLe
        | failed => simp [stepSettle, hf, hk, countImmediate]; exact hciLe
      · cases res with
        | ok v => simp [stepSettle, hf, hk, countSlotRelease]
        | failed => simp [stepSettle, hf, hk, countSlotRelease]
      · cases res with
        | ok v => simp [stepSettle, hf, hk]
        | failed => simp [stepSettle, hf, hk]

lemma inv2_stepFire (s : GeoState) (t tid : Nat)
    (h : Inv2 s) : Inv2 (stepFire s t tid) := by
  cases ht : findById Timer.id s.timers tid with
  | none =>
    have hnew : stepFire s t tid = s := by simp [stepFire, ht]
    rw [hnew]
    exact h
  | some tm =>
    cases hk : tm.kind with
    | slotRelease =>
      obtain ⟨h1, h2, h3, h4⟩ := h
      have hsr : isSlotRelease tm = true := by simp [isSlotRelease, hk]
      have hcsPos : 1 ≤ countSlotRelease s :=
        countP_pos_of_findById isSlotRelease Timer.id s.timers tid tm ht hsr
      have hci0 : countImmediate s = 0 := by
        by_cases hge : 1 ≤ countImmediate s
        · have := h4 hge; omega
        · omega
      have hcs0 : (removeById Timer.id s.timers tid).countP
          isSlotRelease = 0 :=
        countP_removeById_zero isSlotRelease Timer.id s.timers tid tm ht
          hsr h2
      have e1 : countImmediate (stepFire s t tid) = 0 := by
        cases hpr : s.pendingResolvers with
        | nil =>
          simp [stepFire, ht, hk, hpr, countImmediate]
          simpa [countImmediate, isImmediateFlight] using hci0
        | cons w ws =>
          cases hla : s.lastArgs with
          | none =>
            simp [stepFire, ht, hk, hpr, hla, executeTrailing,
              countImmediate]
            simpa [countImmediate, isImmediateFlight] using hci0
          | some kk =>
            simp [stepFire, ht, hk, hpr, hla, executeTrailing,
              countImmediate, List.countP_append, isImmediateFlight]
            simpa [countImmediate, isImmediateFlight] using hci0
      have e2 : countSlotRelease (stepFire s t tid) = 0 := by
        cases hpr : s.pendingResolvers with
        | nil =>
          simp [stepFire, ht, hk, hpr, countSlotRelease]
          simpa using hcs0
        | cons w ws =>
          cases hla : s.lastArgs with
          | none =>
            simp [stepFire, ht, hk, hpr, hla, executeTrailing,
              countSlotRelease]
            simpa using hcs0
          | some kk =>
            simp [stepFire, ht, hk, hpr, hla, executeTrailing,
              countSlotRelease]
            simpa using hcs0
      refine ⟨by omega, by omega, ?_, ?_⟩
      · intro _
        exact ⟨e1, e2⟩
      · intro hg
        omega
    | debounce =>
      have hcsLe : (removeById Timer.id s.timers tid).countP
          isSlotRelease ≤ countSlotRelease s :=
        countP_removeById_le isSlotRelease Timer.id s.timers tid
      refine inv2_mono _ s ?_ ?_ ?_ h
      · cases hla : s.lastArgs with
        | none =>
          simp [stepFire, ht, hk, executeTrailing, hla, countImmediate]
        | some kk =>
          simp [stepFire, ht, hk, executeTrailing, hla, countImmediate,
            List.countP_append, isImmediateFlight]
      · cases hla : s.lastArgs with
        | none =>
          simp [stepFire, ht, hk, executeTrailing, hla, countSlotRelease]
          exact hcsLe
        | some kk =>
          simp [stepFire, ht, hk, executeTrailing, hla, countSlotRelease]
          exact hcsLe
      · cases hla : s.lastArgs with
        | none => simp [stepFire, ht, hk, executeTrailing, hla]
        | some kk => simp [stepFire, ht, hk, executeTrailing, hla]

lemma inv2_step (s : GeoState) (e : GEvent) (h : Inv2 s) :
    Inv2 (step s e) := by
  cases e with
  | look t cid k => exact inv2_stepLookup s t cid k h
  | settle t fid r => exact inv2_stepSettle s t fid r h
  | fire t tid => exact inv2_stepFire s t tid h

lemma inv2_runFrom : ∀ (tr : List GEvent) (s : GeoState), Inv2 s →
    Inv2 (runFrom s tr) := by
  intro tr
  induction tr with
  | nil => intro s h; exact h
  | cons e es ih =>
    intro s h
    exact ih (step s e) (inv2_step s e h)

/-- C2 (amended): at most one *immediate* dispatch is ever in flight — the
busy flag is raised while one runs and is only lowered by the slot-release
timer, which cannot be pending while an immediate dispatch is in flight.
The full mutual-exclusion claim fails for deferred dispatches: the trailing
timer starts `#executeTrailing` without consulting the in-flight state, so
a deferred Fetcher call can overlap the immediate one (`c2tr`). -/
theorem C2_amended (tr : List GEvent) : countImmediate (run tr) ≤ 1 :=
  (inv2_runFrom tr initState
    ⟨by decide, by decide, fun _ => ⟨by decide, by decide⟩,
     fun hg => absurd hg (by decide)⟩).1

/-! Preservation of `Inv10` (waiter promises are never rejected). -/

lemma inv10_congr (s2 s : GeoState)
    (e1 : s2.promSettled = s.promSettled)
    (e2 : s2.waiterProms = s.waiterProms)
    (e3 : s2.inflight = s.inflight)
    (e4 : s2.pendingResolvers = s.pendingResolvers)
    (e5 : s2.nextProm = s.nextProm)
    (h : Inv10 s) : Inv10 s2 := by
  unfold Inv10 at h ⊢
  rw [e1, e2, e3, e4, e5]
  exact h

lemma inv10_executeTrailing (s : GeoState) (t : Nat)
    (h : Inv10 s) : Inv10 (executeTrailing s t) := by
  cases hla : s.lastArgs with
  | none =>
    have hE : executeTrailing s t = s := by simp [executeTrailing, hla]
    rw [hE]
    exact h
  | some k =>
    obtain ⟨I1, I2, I3, I4, I5⟩ := h
    have hE : executeTrailing s t =
        { s with
          inflight := s.inflight ++ [⟨s.nextFetch, k, t, .deferred⟩],
          fetchLog := s.fetchLog ++ [⟨s.nextFetch, k, t, true⟩],
          nextFetch := s.nextFetch + 1 } := by
      simp [executeTrailing, hla]
    rw [hE]
    refine ⟨I1, I2, I3, ?_, I5⟩
    intro fl hfl p hp
    rcases List.mem_append.mp hfl with h1 | h2
    · exact I4 fl h1 p hp
    · have he : fl = ⟨s.nextFetch, k, t, .deferred⟩ := List.mem_singleton.mp h2
      rw [he] at hp
      exact FlightKind.noConfusion hp

lemma inv10_stepLookup (s : GeoState) (t cid : Nat) (k : GKey)
    (h : Inv10 s) : Inv10 (stepLookup s t cid k) := by
  cases hc : alookup s.cache k with
  | some v =>
    obtain ⟨I1, I2, I3, I4, I5⟩ := h
    have hE : stepLookup s t cid k =
        { s with
          promSettled := (s.nextProm, PromResult.ok v) :: s.promSettled,
          callLog := (cid, s.nextProm) :: s.callLog,
          nextProm := s.nextProm + 1 } := by
      simp [stepLookup, hc]
    rw [hE]
    refine ⟨?_, ?_, ?_, ?_, I5⟩
    · intro w hw r hr
      rcases List.mem_cons.mp hr with h1 | h2
      · exact ⟨v, congrArg Prod.snd h1⟩
      · exact I1 w hw r h2
    · intro q r hr
      rcases List.mem_cons.mp hr with h1 | h2
      · have hq : q = s.nextProm := congrArg Prod.fst h1
        show q < s.nextProm + 1
        omega
      · have := I2 q r h2
        show q < s.nextProm + 1
        omega
    · intro w hw
      have := I3 w hw
      show w < s.nextProm + 1
      omega
    · intro fl hfl p hp
      obtain ⟨a, b⟩ := I4 fl hfl p hp
      exact ⟨by show p < s.nextProm + 1; omega, b⟩
  | none =>
    cases hp2 : alookup s.pendingRequests k with
    | some p =>
      refine inv10_congr _ s ?_ ?_ ?_ ?_ ?_ h <;>
        simp [stepLookup, hc, hp2]
    | none =>
      cases hflag : s.hasExecutedImmediately with
      | true =>
        obtain ⟨I1, I2, I3, I4, I5⟩ := h
        have hE : stepLookup s t cid k =
            { s with
              lastArgs := some k,
              pendingResolvers := s.pendingResolvers ++ [s.nextProm],
              waiterProms := s.nextProm :: s.waiterProms,
              callLog := (cid, s.nextProm) :: s.callLog,
              timers :=
                (match s.debounceTimer with
                 | none => s.timers
                 | some tid => removeById Timer.id s.timers tid) ++
                [⟨s.nextTimer, t + DEBOUNCE_DELAY, .debounce⟩],
              debounceTimer := some s.nextTimer,
              nextProm := s.nextProm + 1,
              nextTimer := s.nextTimer + 1 } := by
          simp [stepLookup, hc, hp2, hflag]
        rw [hE]
        refine ⟨?_, ?_, ?_, ?_, ?_⟩
        · intro w hw r hr
          rcases List.mem_cons.mp hw with h1 | h2
          · have h3 := I2 w r hr
            exact absurd h3 (by omega)
          · exact I1 w h2 r hr
        · intro q r hr
          have := I2 q r hr
          show q < s.nextProm + 1
          omega
        · intro w hw
          rcases List.mem_cons.mp hw with h1 | h2
          · show w < s.nextProm + 1
            omega
          · have := I3 w h2
            show w < s.nextProm + 1
            omega
        · intro fl hfl p hp
          obtain ⟨a, b⟩ := I4 fl hfl p hp
          refine ⟨by show p < s.nextProm + 1; omega, ?_⟩
          intro hmem
          rcases List.mem_cons.mp hmem with h1 | h2
          · omega
          · exact b h2
        · intro w hw
          rcases List.mem_append.mp hw with h1 | h2
          · exact List.mem_cons_of_mem _ (I5 w h1)
          · have he : w = s.nextProm := List.mem_singleton.mp h2
            rw [he]
            exact List.mem_cons_self _ _
      | false =>
        obtain ⟨I1, I2, I3, I4, I5⟩ := h
        have hE : stepLookup s t cid k =
            { s with
              hasExecutedImmediately := true,
              pendingRequests := (k, s.nextProm) :: s.pendingRequests,
              inflight := s.inflight ++
                [⟨s.nextFetch, k, t, .immediate s.nextProm⟩],
              fetchLog := s.fetchLog ++ [⟨s.nextFetch, k, t, false⟩],
              callLog := (cid, s.nextProm) :: s.callLog,
              nextProm := s.nextProm + 1,
              nextFetch := s.nextFetch + 1 } := by
          simp [stepLookup, hc, hp2, hflag]
        rw [hE]
        refine ⟨I1, ?_, ?_, ?_, I5⟩
        · intro q r hr
          have := I2 q r hr
          show q < s.nextProm + 1
          omega
        · intro w hw
          have := I3 w hw
          show w < s.nextProm + 1
          omega
        · intro fl hfl p hp
          rcases List.mem_append.mp hfl with h1 | h2
          · obtain ⟨a, b⟩ := I4 fl h1 p hp
            exact ⟨by show p < s.nextProm + 1; omega, b⟩
          · have he : fl = ⟨s.nextFetch, k, t, .immediate s.nextProm⟩ :=
              List.mem_singleton.mp h2
            rw [he] at hp
            have hpe : s.nextProm = p := by injection hp
            refine ⟨by show p < s.nextProm + 1; omega, ?_⟩
            intro hmem
            have := I3 p hmem
            omega

lemma inv10_stepSettle (s : GeoState) (t fid : Nat) (res : PromResult)
    (h : Inv10 s) : Inv10 (stepSettle s t fid res) := by
  cases hf : findById Flight.id s.inflight fid with
  | none =>
    have hE : stepSettle s t fid res = s := by simp [stepSettle, hf]
    rw [hE]
    exact h
  | some f =>
    obtain ⟨I1, I2, I3, I4, I5⟩ := h
    cases hk : f.kind with
    | immediate p0 =>
      have hp0 := I4 f (mem_of_findById Flight.id s.inflight fid f hf) p0 hk
      cases res with
      | ok v =>
        have hE : stepSettle s t fid (.ok v) =
            { s with
              inflight := removeById Flight.id s.inflight fid,
              cache := (f.key, v) :: s.cache,
              pendingRequests := aremove s.pendingRequests f.key,
              promSettled :=
                settleProm (resolveAll s.pendingResolvers (PromResult.ok v)
                  s.promSettled) p0 (PromResult.ok v),
              pendingResolvers := [],
              timers := s.timers ++
                [⟨s.nextTimer, t + DEBOUNCE_DELAY, .slotRelease⟩],
              nextTimer := s.nextTimer + 1 } := by
          simp [stepSettle, hf, hk]
        rw [hE]
        refine ⟨?_, ?_, I3, ?_, ?_⟩
        · intro w hw r hr
          rcases mem_settleProm _ _ _ _ _ hr with h1 | ⟨_, hrr⟩
          · rcases mem_resolveAll _ _ _ _ _ h1 with h2 | ⟨_, hrr⟩
            · exact I1 w hw r h2
            · exact ⟨v, hrr⟩
          · exact ⟨v, hrr⟩
        · intro q r hr
          rcases mem_settleProm _ _ _ _ _ hr with h1 | ⟨hq, _⟩
          · rcases mem_resolveAll _ _ _ _ _ h1 with h2 | ⟨hin, _⟩
            · exact I2 q r h2
            · exact I3 q (I5 q hin)
          · rw [hq]
            exact hp0.1
        · intro fl hfl p hp
          exact I4 fl (mem_of_mem_removeById Flight.id s.inflight fid fl hfl)
            p hp
        · intro w hw
          exact absurd hw (List.not_mem_nil w)
      | failed =>
        have hE : stepSettle s t fid .failed =
            { s with
              inflight := removeById Flight.id s.inflight fid,
              promSettled := settleProm s.promSettled p0 PromResult.failed,
              timers := s.timers ++
                [⟨s.nextTimer, t + DEBOUNCE_DELAY, .slotRelease⟩],
              nextTimer := s.nextTimer + 1 } := by
          simp [stepSettle, hf, hk]
        rw [hE]
        refine ⟨?_, ?_, I3, ?_, I5⟩
        · intro w hw r hr
          rcases mem_settleProm _ _ _ _ _ hr with h1 | ⟨hq, _⟩
          · exact I1 w hw r h1
          · exact absurd (hq ▸ hw) hp0.2
        · intro q r hr
          rcases mem_settleProm _ _ _ _ _ hr with h1 | ⟨hq, _⟩
          · exact I2 q r h1
          · rw [hq]
            exact hp0.1
        · intro fl hfl p hp
          exact I4 fl (mem_of_mem_removeById Flight.id s.inflight fid fl hfl)
            p hp
    | deferred =>
      cases res with
      | ok v =>
        have hE : stepSettle s t fid (.ok v) =
            { s with
              inflight := removeById Flight.id s.inflight fid,
              cache := (f.key, v) :: s.cache,
              promSettled := resolveAll s.pendingResolvers (PromResult.ok v)
                s.promSettled,
              pendingResolvers := [],
              pendingRequests := aremove s.pendingRequests f.key,
              lastArgs := none } := by
          simp [stepSettle, hf, hk]
        rw [hE]
        refine ⟨?_, ?_, I3, ?_, ?_⟩
        · intro w hw r hr
          rcases mem_resolveAll _ _ _ _ _ hr with h2 | ⟨_, hrr⟩
          · exact I1 w hw r h2
          · exact ⟨v, hrr⟩
        · intro q r hr
          rcases mem_resolveAll _ _ _ _ _ hr with h2 | ⟨hin, _⟩
          · exact I2 q r h2
          · exact I3 q (I5 q hin)
        · intro fl hfl p hp
          exact I4 fl (mem_of_mem_removeById Flight.id s.inflight fid fl hfl)
            p hp
        · intro w hw
          exact absurd hw (List.not_mem_nil w)
      | failed =>
        have hE : stepSettle s t fid .failed =
            { s with
              inflight := removeById Flight.id s.inflight fid,
              promSettled := resolveAll s.pendingResolvers
                (PromResult.ok none) s.promSettled,
              pendingResolvers := [],
              pendingRequests := aremove s.pendingRequests f.key,
              lastArgs := none } := by
          simp [stepSettle, hf, hk]
        rw [hE]
        refine ⟨?_, ?_, I3, ?_, ?_⟩
        · intro w hw r hr
          rcases mem_resolveAll _ _ _ _ _ hr with h2 | ⟨_, hrr⟩
          · exact I1 w hw r h2
          · exact ⟨none, hrr⟩
        · intro q r hr
          rcases mem_resolveAll _ _ _ _ _ hr with h2 | ⟨hin, _⟩
          · exact I2 q r h2
          · exact I3 q (I5 q hin)
        · intro fl hfl p hp
          exact I4 fl (mem_of_mem_removeById Flight.id s.inflight fid fl hfl)
            p hp
        · intro w hw
          exact absurd hw (List.not_mem_nil w)

lemma inv10_stepFire (s : GeoState) (t tid : Nat)
    (h : Inv10 s) : Inv10 (stepFire s t tid) := by
  cases ht : findById Timer.id s.timers tid with
  | none =>
    have hE : stepFire s t tid = s := by simp [stepFire, ht]
    rw [hE]
    exact h
  | some tm =>
    cases hk : tm.kind with
    | slotRelease =>
      cases hpr : s.pendingResolvers with
      | nil =>
        have hE : stepFire s t tid =
            { s with
              timers := removeById Timer.id s.timers tid,
              hasExecutedImmediately := false } := by
          simp [stepFire, ht, hk, hpr]
        rw [hE]
        exact inv10_congr _ s rfl rfl rfl (by rw [hpr]) rfl h
      | cons w ws =>
        cases hla : s.lastArgs with
        | none =>
          have hE : stepFire s t tid =
              { s with
                timers := removeById Timer.id s.timers tid,
                hasExecutedImmediately := false } := by
            simp [stepFire, ht, hk, hpr, hla]
          rw [hE]
          exact inv10_congr _ s rfl rfl rfl rfl rfl h
        | some kk =>
          have hE : stepFire s t tid =
              executeTrailing
                { s with
                  timers := removeById Timer.id s.timers tid,
                  hasExecutedImmediately := false } t := by
            simp [stepFire, ht, hk, hpr, hla]
          rw [hE]
          exact inv10_executeTrailing _ t
            (inv10_congr _ s rfl rfl rfl rfl rfl h)
    | debounce =>
      have hE : stepFire s t tid =
          executeTrailing
            { s with timers := removeById Timer.id s.timers tid } t := by
        simp [stepFire, ht, hk]
      rw [hE]
      exact inv10_executeTrailing _ t
        (inv10_congr _ s rfl rfl rfl rfl rfl h)

lemma inv10_step (s : GeoState) (e : GEvent) (h : Inv10 s) :
    Inv10 (step s e) := by
  cases e with
  | look t cid k => exact inv10_stepLookup s t cid k h
  | settle t fid r => exact inv10_stepSettle s t fid r h
  | fire t tid => exact inv10_stepFire s t tid h

lemma inv10_runFrom : ∀ (tr : List GEvent) (s : GeoState), Inv10 s →
    Inv10 (runFrom s tr) := by
  intro tr
  induction tr with
  | nil => intro s h; exact h
  | cons e es ih =>
    intro s h
    exact ih (step s e) (inv10_step s e h)

lemma inv10_init : Inv10 initState := by
  refine ⟨?_, ?_, ?_, ?_, ?_⟩
  · intro w hw
    exact absurd hw (List.not_mem_nil w)
  · intro q r hr
    exact absurd hr (List.not_mem_nil _)
  · intro w hw
    exact absurd hw (List.not_mem_nil w)
  · intro fl hfl
    exact absurd hfl (List.not_mem_nil fl)
  · intro w hw
    exact absurd hw (List.not_mem_nil w)

/-- C10: the promise handed to a call queued as a Waiter can never reject —
the trailing promise is built with a resolver only (line 351, no rejection
path), so a queued caller is only ever settled by a `resolve` call with a
string value or `null`, even when every underlying Fetcher call throws. -/
theorem C10_waiter_never_rejects (tr : List GEvent) (w : Nat)
    (hw : w ∈ (run tr).waiterProms) :
    alookup (run tr).promSettled w ≠ some PromResult.failed := by
  intro hcontr
  obtain ⟨I1, I2, I3, I4, I5⟩ := inv10_runFrom tr initState inv10_init
  obtain ⟨v, hv⟩ := I1 w hw PromResult.failed
    (alookup_some_mem (run tr).promSettled w PromResult.failed hcontr)
  cases hv

/-- C10 witness: in the trace `c10tr` both Fetcher calls fail, the queued
waiter (promise 1) is a waiter promise, and by `C10_waiter_never_rejects`
its settlement is not a rejection (it is in fact fulfilled with `null`). -/
theorem C10_witness :
    ¬ (alookup (run c10tr).promSettled 1 = some PromResult.failed) :=
  C10_waiter_never_rejects c10tr 1 (by decide)

end MapPicker
